import Mathlib

/-!
Verification development for the `bunview` host-process controller
(`src/lib/index.js`).  The JavaScript source drives a native window process
over a line-oriented JSON protocol on stdin/stdout.  This file gives a
shallow embedding of the parts of that source that the frozen claims talk
about:

* a model of JSON values and of `JSON.parse` / `JSON.stringify` for the
  fragment of JSON the protocol uses (objects, arrays, strings with the
  standard escapes, integer numbers, `null`, booleans);
* `Window.write` (outbound envelope encoding, `index.js` lines 73-78);
* the configuration merge done by the constructor and the argument vector
  built by `display` (lines 56-66 and 150-166);
* the callback registry mutated by `bind` (lines 49-50 and 85-93);
* the inbound dispatcher `ioHandlers.stdout` (lines 185-221), whose
  observable behaviour is modelled as a list of effects (kill / emit /
  callback invocation) or an error for the exceptions the handler can
  throw.
-/

namespace Bunview

/-! ### Characters used by the wire syntax -/

/-- The double-quote character `"` (code point 34). -/
def quoteCh : Char := Char.ofNat 34

/-- The backslash character (code point 92). -/
def backCh : Char := Char.ofNat 92

/-- The opening-brace character (code point 123). -/
def openBr : Char := Char.ofNat 123

/-- The closing-brace character (code point 125). -/
def closeBr : Char := Char.ofNat 125

/-! ### JSON values

`Json` models the values produced by `JSON.parse`.  Numbers are modelled as
integers: every numeric literal appearing on this wire protocol (callback
ids, callback arguments, configuration numbers) is an integer, and the
protocol never exchanges fractional numbers. -/

inductive Json where
  | null
  | bool (b : Bool)
  | num (n : Int)
  | str (s : String)
  | arr (items : List Json)
  | obj (members : List (String × Json))

/-- A JavaScript value that may also be `undefined` (`none`).  Used for the
payload argument of an event emission, where the source can pass
`evt.data` even when that property is absent. -/
abbrev JsVal := Option Json

/-- Property access `m.k` on a parsed JSON value: a lookup in the member
list for objects, `undefined` (`none`) otherwise.  (JSON.parse keeps the
last of duplicate keys; no protocol message uses duplicate keys, so the
first-match lookup agrees with it on every input considered here.) -/
def Json.lookupField (m : Json) (k : String) : Option Json :=
  match m with
  | .obj kvs => kvs.lookup k
  | _ => none

/-- JavaScript truthiness of a parsed JSON value, as used by the source's
`if (evt.data)` test: `null`, `false`, `0` and the empty string are falsy,
everything else (including empty arrays and objects) is truthy. -/
def jsTruthy : Json → Bool
  | .null => false
  | .bool b => b
  | .num n => n != 0
  | .str s => !s.isEmpty
  | .arr _ => true
  | .obj _ => true

/-! ### Parsing (`JSON.parse`)

The parser works on `List Char`.  Lexical helpers are structurally
recursive; the value/array-items/object-members recursion is driven by a
fuel parameter, and `jsonParse` supplies fuel `length + 2`, which is ample
because every recursive step consumes at least one character. -/

/-- Whitespace accepted between JSON tokens. -/
def isWsCh (c : Char) : Bool :=
  c = ' ' || c = '\n' || c = '\r' || c = '\t'

/-- Drops leading JSON whitespace. -/
def skipWs : List Char → List Char
  | [] => []
  | c :: cs => if isWsCh c then skipWs cs else c :: cs

/-- Value of one hexadecimal digit, accepting both cases. -/
def hexVal (c : Char) : Option Nat :=
  if 48 ≤ c.toNat ∧ c.toNat ≤ 57 then some (c.toNat - 48)
  else if 97 ≤ c.toNat ∧ c.toNat ≤ 102 then some (c.toNat - 87)
  else if 65 ≤ c.toNat ∧ c.toNat ≤ 70 then some (c.toNat - 55)
  else none

/-- Decimal digit test. -/
def isDigitCh (c : Char) : Bool :=
  48 ≤ c.toNat && c.toNat ≤ 57

/-- Reads a maximal run of decimal digits, accumulating their value. -/
def digitsAux : List Char → Nat → Nat × List Char
  | [], acc => (acc, [])
  | c :: cs, acc =>
    if isDigitCh c then digitsAux cs (acc * 10 + (c.toNat - 48)) else (acc, c :: cs)

/-- Reads a nonempty run of decimal digits. -/
def readDigits : List Char → Option (Nat × List Char)
  | [] => none
  | c :: cs =>
    if isDigitCh c then some (digitsAux cs (c.toNat - 48)) else none

/-- Decodes one single-character escape (the character after the
backslash): `\" \\ \/ \b \f \n \r \t`. -/
def escShort (e : Char) : Option Char :=
  if e = quoteCh then some quoteCh
  else if e = backCh then some backCh
  else if e = '/' then some '/'
  else if e = 'b' then some (Char.ofNat 8)
  else if e = 'f' then some (Char.ofNat 12)
  else if e = 'n' then some (Char.ofNat 10)
  else if e = 'r' then some (Char.ofNat 13)
  else if e = 't' then some (Char.ofNat 9)
  else none

/-- Value of four hexadecimal digits. -/
def hexVal4 (h1 h2 h3 h4 : Char) : Option Nat :=
  match hexVal h1, hexVal h2, hexVal h3, hexVal h4 with
  | some a, some b, some c, some d => some (((a * 16 + b) * 16 + c) * 16 + d)
  | _, _, _, _ => none

/-- Body of a JSON string literal, after the opening quote: returns the
decoded characters and the input after the closing quote.  Handles the
escape sequences of RFC 8259 (`\" \\ \/ \b \f \n \r \t \uXXXX`). -/
def readStringBody : List Char → Option (List Char × List Char)
  | [] => none
  | c :: cs =>
    if c = quoteCh then some ([], cs)
    else if c = backCh then
      match cs with
      | [] => none
      | e :: cs2 =>
        if e = 'u' then
          match cs2 with
          | h1 :: h2 :: h3 :: h4 :: cs3 =>
            match hexVal4 h1 h2 h3 h4 with
            | some n => (readStringBody cs3).map fun p => (Char.ofNat n :: p.1, p.2)
            | none => none
          | _ => none
        else
          match escShort e with
          | some d => (readStringBody cs2).map fun p => (d :: p.1, p.2)
          | none => none
    else (readStringBody cs).map fun p => (c :: p.1, p.2)

/-- Parsing modes: a single JSON value, the items of an array after `[`,
or the members of an object after the opening brace.  A single
fuel-indexed function replaces the natural mutual recursion so that every
recursive call is structural in the fuel argument. -/
inductive PMode where
  | value
  | items
  | members

/-- Result of one parsing mode. -/
inductive PRes where
  | val (v : Json)
  | items (l : List Json)
  | members (l : List (String × Json))

/-- The core of `JSON.parse` on the protocol fragment.  `parseF fuel
.value l` parses one JSON value from `l` and returns it with the
remaining input. -/
def parseF : Nat → PMode → List Char → Option (PRes × List Char)
  | 0, _, _ => none
  | fuel + 1, .value, l =>
    match skipWs l with
    | [] => none
    | c :: cs =>
      if c = quoteCh then
        match readStringBody cs with
        | some (s, r) => some (.val (.str (String.mk s)), r)
        | none => none
      else if c = openBr then
        match skipWs cs with
        | [] => none
        | d :: ds =>
          if d = closeBr then some (.val (.obj []), ds)
          else
            match parseF fuel .members (d :: ds) with
            | some (.members ms, r) => some (.val (.obj ms), r)
            | _ => none
      else if c = '[' then
        match skipWs cs with
        | [] => none
        | d :: ds =>
          if d = ']' then some (.val (.arr []), ds)
          else
            match parseF fuel .items (d :: ds) with
            | some (.items is, r) => some (.val (.arr is), r)
            | _ => none
      else if c = 'n' then
        match cs with
        | 'u' :: 'l' :: 'l' :: r => some (.val .null, r)
        | _ => none
      else if c = 't' then
        match cs with
        | 'r' :: 'u' :: 'e' :: r => some (.val (.bool true), r)
        | _ => none
      else if c = 'f' then
        match cs with
        | 'a' :: 'l' :: 's' :: 'e' :: r => some (.val (.bool false), r)
        | _ => none
      else if c = '-' then
        match readDigits cs with
        | some (n, r) => some (.val (.num (-(n : Int))), r)
        | none => none
      else if isDigitCh c then
        match readDigits (c :: cs) with
        | some (n, r) => some (.val (.num (n : Int)), r)
        | none => none
      else none
  | fuel + 1, .items, l =>
    match parseF fuel .value l with
    | some (.val v, r) =>
      (match skipWs r with
       | [] => none
       | c :: cs =>
         if c = ',' then
           match parseF fuel .items cs with
           | some (.items is, r2) => some (.items (v :: is), r2)
           | _ => none
         else if c = ']' then some (.items [v], cs)
         else none)
    | _ => none
  | fuel + 1, .members, l =>
    match skipWs l with
    | [] => none
    | c :: cs =>
      if c = quoteCh then
        match readStringBody cs with
        | some (key, r1) =>
          (match skipWs r1 with
           | [] => none
           | c2 :: r2 =>
             if c2 = ':' then
               match parseF fuel .value r2 with
               | some (.val v, r3) =>
                 (match skipWs r3 with
                  | [] => none
                  | c3 :: r4 =>
                    if c3 = ',' then
                      match parseF fuel .members r4 with
                      | some (.members ms, r5) => some (.members ((String.mk key, v) :: ms), r5)
                      | _ => none
                    else if c3 = closeBr then some (.members [(String.mk key, v)], r4)
                    else none)
               | _ => none
             else none)
        | none => none
      else none

/-- `JSON.parse` on a whole string: one value, followed only by
whitespace.  `none` models a thrown `SyntaxError`. -/
def jsonParse (s : String) : Option Json :=
  match parseF (s.data.length + 2) .value s.data with
  | some (.val v, r) => if skipWs r = [] then some v else none
  | _ => none

/-! ### Serialising (`JSON.stringify` on the envelopes the source emits) -/

/-- Lower-case hexadecimal digit for `n < 16`. -/
def hexDigit (n : Nat) : Char :=
  if n < 10 then Char.ofNat (48 + n) else Char.ofNat (87 + n)

/-- How `JSON.stringify` renders one character inside a string literal:
quote and backslash get a backslash escape, the control characters with
short escapes use them, the remaining control characters use `\u00XX`,
everything else is emitted verbatim. -/
def escChar (c : Char) : List Char :=
  if c = quoteCh then [backCh, quoteCh]
  else if c = backCh then [backCh, backCh]
  else if c = Char.ofNat 8 then [backCh, 'b']
  else if c = Char.ofNat 9 then [backCh, 't']
  else if c = Char.ofNat 10 then [backCh, 'n']
  else if c = Char.ofNat 12 then [backCh, 'f']
  else if c = Char.ofNat 13 then [backCh, 'r']
  else if c.toNat < 32 then
    [backCh, 'u', '0', '0', hexDigit (c.toNat / 16), hexDigit (c.toNat % 16)]
  else [c]

/-- `JSON.stringify` escaping of a whole character list. -/
def escapeList : List Char → List Char
  | [] => []
  | c :: cs => escChar c ++ escapeList cs

/-- The characters of the JSON string literal for `cs`, followed by
`rest` (difference-list style, so that the serialised envelope is built
right-nested and proofs never have to reassociate appends). -/
def strLitList (cs : List Char) (rest : List Char) : List Char :=
  quoteCh :: (escapeList cs ++ (quoteCh :: rest))

/-- The characters of `JSON.stringify({type: t, data: d})` followed by
`rest`: the source always stringifies a two-field record whose values are
strings (`index.js` lines 74-77). -/
def writeList (t d : String) (rest : List Char) : List Char :=
  openBr ::
    strLitList ("type".data)
      (':' :: strLitList t.data
        (',' :: strLitList ("data".data)
          (':' :: strLitList d.data (closeBr :: rest))))

/-- The parsed form of one outbound envelope `{type: t, data: d}`. -/
def envelopeJson (t d : String) : Json :=
  .obj [("type", .str t), ("data", .str d)]

/-- `Window.write` (lines 73-78): the exact text written to the process's
stdin, `JSON.stringify({type, data}) + "\n"`. -/
def Window.write (t d : String) : String :=
  String.mk (writeList t d ['\n'])

/-- The outbound command vocabulary used by the source's operations
(`bind`, `setTitle`, `setSize`, `navigate`, `eval`, `init`). -/
def outboundTypes : List String :=
  ["bind", "setTitle", "setSize", "navigate", "eval", "init"]

/-! ### Configuration merge and spawn arguments -/

/-- The class-field initialiser of `Window.config` (lines 34-39). -/
def defaultConfig : List (String × Json) :=
  [("height", .num 320), ("width", .num 480), ("title", .str ""),
   ("url", .str "data:text/html,<html>Bunview</html>")]

/-- JavaScript object spread `{...a, ...b}` on records with distinct keys:
keys of `a` keep their position but take `b`'s value when `b` also has the
key; keys only in `b` follow. -/
def spreadMerge (a b : List (String × Json)) : List (String × Json) :=
  (a.map fun kv =>
    match b.lookup kv.1 with
    | some v => (kv.1, v)
    | none => kv)
  ++ b.filter fun kv => (a.lookup kv.1).isNone

/-- Line 61 of the constructor: `this.config = {...config, ...this.config}`,
where `this.config` already holds `defaultConfig` (class fields are
initialised before the constructor body runs).  Note the defaults are
spread second. -/
def Window.constructorConfig (config : List (String × Json)) : List (String × Json) :=
  spreadMerge config defaultConfig

/-- JavaScript string coercion of a property read from the merged
configuration, as used by the `'--height=' + config.height` string
concatenations.  (Array and plain-object coercions are placeholders: the
four configuration fields read by `createConfigArgs` are only ever numbers
or strings.) -/
def jsDisplay : Option Json → String
  | none => "undefined"
  | some .null => "null"
  | some (.bool true) => "true"
  | some (.bool false) => "false"
  | some (.num n) => toString n
  | some (.str s) => s
  | some (.arr _) => ""
  | some (.obj _) => "[object Object]"

/-- `createConfigArgs` inside `display` (lines 153-160): the argument
vector appended to the executable path when spawning. -/
def Window.createConfigArgs (config : List (String × Json)) : List String :=
  ["--height=" ++ jsDisplay (config.lookup "height"),
   "--width=" ++ jsDisplay (config.lookup "width"),
   "--title=\"" ++ jsDisplay (config.lookup "title") ++ "\"",
   "--url=\"" ++ jsDisplay (config.lookup "url") ++ "\""]

/-! ### The callback registry (`#callbacks` / `#bindIndex`) -/

/-- The private registry state of a `Window`: the `#callbacks` array read
at integer indices (a JavaScript array read off the end yields
`undefined`, hence `Nat → Option κ`), and the `#bindIndex` counter.  The
callable type `κ` is abstract: the source stores the caller's function
references without inspecting them. -/
structure WindowCallbacks (κ : Type) where
  callbacks : Nat → Option κ
  bindIndex : Nat

/-- The registry of a freshly constructed `Window` (lines 49-50):
an empty array and counter zero. -/
def Window.initCallbacks (κ : Type) : WindowCallbacks κ :=
  ⟨fun _ => none, 0⟩

/-- `Window.bind` (lines 85-93): stores the callback at the current
`#bindIndex`, writes a `bind` envelope whose data is `"<index>:<name>"`,
and bumps the index.  Returns the new state, the index used, and the data
string written. -/
def Window.bind (st : WindowCallbacks κ) (name : String) (callback : κ) :
    WindowCallbacks κ × Nat × String :=
  (⟨fun j => if j = st.bindIndex then some callback else st.callbacks j,
    st.bindIndex + 1⟩,
   st.bindIndex,
   toString st.bindIndex ++ ":" ++ name)

/-- Runs a sequence of `bind` calls, collecting the indices assigned. -/
def Window.bindAll (st : WindowCallbacks κ) :
    List (String × κ) → WindowCallbacks κ × List Nat
  | [] => (st, [])
  | (name, cb) :: rest =>
    let r1 := Window.bind st name cb
    let r2 := Window.bindAll r1.1 rest
    (r2.1, r1.2.1 :: r2.2)

/-! ### The inbound dispatcher (`ioHandlers.stdout`) -/

/-- Observable actions of one dispatch: killing the subprocess, an
`EventEmitter.emit`, or invoking a stored callback.  An emission's payload
is `none` when `emit` is called with the event name only, and
`some v` when a second argument `v` (possibly the JS `undefined`) is
passed. -/
inductive Effect (κ : Type) where
  | kill
  | emit (event : String) (payload : Option JsVal)
  | invoke (callback : κ) (args : List Json)

/-- Exceptions the stdout handler can throw.  `parseError` is the
`SyntaxError` of `JSON.parse(msg)` on the chunk; `nestedParseError` the
one of `JSON.parse(msg.data)`; `undefinedCall` the `TypeError` raised by
calling `this.#callbacks[id]` when that slot is `undefined`;
`badShape` covers property access / spread on values of the wrong shape
(never reachable on well-formed protocol traffic). -/
inductive StdoutError where
  | parseError
  | nestedParseError
  | undefinedCall
  | badShape
deriving DecidableEq

/-- The body of `ioHandlers.stdout` after `JSON.parse` succeeded
(lines 190-219): the three-way type switch.  An unmatched `type` falls
through every branch and the handler returns without doing anything. -/
def Window.dispatchMsg (callbacks : Nat → Option κ) (m : Json) :
    Except StdoutError (List (Effect κ)) :=
  match m.lookupField "type" with
  | some (.str t) =>
    if t = "event" then
      match m.lookupField "data" with
      | some (.str s) =>
        match jsonParse s with
        | none => .error .nestedParseError
        | some evt =>
          match evt.lookupField "event" with
          | some (.str name) =>
            if name = "close" then .ok [.kill, .emit name none]
            else
              match evt.lookupField "data" with
              | some d => if jsTruthy d then .ok [.emit name (some (some d))]
                          else .ok [.emit name none]
              | none => .ok [.emit name none]
          | _ => .error .badShape
      | _ => .error .badShape
    else if t = "internalEvent" then
      match m.lookupField "data" with
      | some evt =>
        match evt.lookupField "event" with
        | some (.str name) => .ok [.emit name (some (evt.lookupField "data"))]
        | _ => .error .badShape
      | none => .error .badShape
    else if t = "bindCallback" then
      match m.lookupField "id" with
      | some (.num i) =>
        if i < 0 then .error .undefinedCall
        else
          match callbacks i.toNat with
          | none => .error .undefinedCall
          | some f =>
            match m.lookupField "data" with
            | some (.arr args) => .ok [.invoke f args]
            | _ => .error .badShape
      | _ => .error .undefinedCall
    else .ok []
  | _ => .ok []

/-- `ioHandlers.stdout` on one decoded chunk (lines 186-221):
`JSON.parse` the whole chunk, then dispatch. -/
def Window.ioStdout (callbacks : Nat → Option κ) (msg : String) :
    Except StdoutError (List (Effect κ)) :=
  match jsonParse msg with
  | none => .error .parseError
  | some m => Window.dispatchMsg callbacks m

/-- The stdout read loop set up by `display` (lines 169-173): each chunk
arriving from the pipe is decoded to text and handed to
`ioHandlers.stdout` on its own.  No state is carried from one chunk to the
next - there is no line buffer and no splitting on newlines. -/
def Window.stdoutLoop (callbacks : Nat → Option κ) (chunks : List String) :
    List (Except StdoutError (List (Effect κ))) :=
  chunks.map (Window.ioStdout callbacks)

/-! ### Concrete protocol lines used by the claims' scenarios -/

/-- The inbound line `{"type":"internalEvent","data":{"event":"ready","data":null}}`
followed by its newline terminator. -/
def readyLine : String :=
  "\x7b\"type\":\"internalEvent\",\"data\":\x7b\"event\":\"ready\",\"data\":null\x7d\x7d\n"

/-- A first fragment of `readyLine`, cut inside the envelope. -/
def readyChunkA : String := "\x7b\"type\":\"internalEv"

/-- The matching second fragment: `readyChunkA ++ readyChunkB = readyLine`. -/
def readyChunkB : String :=
  "ent\",\"data\":\x7b\"event\":\"ready\",\"data\":null\x7d\x7d\n"

/-- The inbound line `{"type":"event","data":"{\"event\":\"close\"}"}`. -/
def closeLine : String :=
  "\x7b\"type\":\"event\",\"data\":\"\x7b\\\"event\\\":\\\"close\\\"\x7d\"\x7d"

/-- An inbound line whose type is outside the protocol vocabulary. -/
def bogusLine : String := "\x7b\"type\":\"bogus\",\"data\":\"x\"\x7d"

/-- The inbound line `{"type":"bindCallback","id":0,"data":[2,3]}`. -/
def bindCallbackLine : String :=
  "\x7b\"type\":\"bindCallback\",\"id\":0,\"data\":[2,3]\x7d"

/-! ### Parser / serialiser inverse lemmas

These show that `jsonParse` recovers exactly the record that
`Window.write` serialised, for arbitrary type and data strings. -/

/-- One hexadecimal digit emitted by the escaper is read back to its
value. -/
theorem hexVal_hexDigit : ∀ k : Nat, k < 16 → hexVal (hexDigit k) = some k := by decide

/-- A string body escaped by `escapeList` and closed with a quote is
decoded back verbatim. -/
theorem readStringBody_escape (cs rest : List Char) :
    readStringBody (escapeList cs ++ (quoteCh :: rest)) = some (cs, rest) := by
  induction cs with
  | nil =>
    rw [escapeList, List.nil_append, readStringBody.eq_def]
    simp
  | cons c cs ih =>
    rw [escapeList, List.append_assoc]
    by_cases h1 : c = quoteCh
    · subst h1; rw [escChar, if_pos rfl]
      rw [List.cons_append, List.cons_append, List.nil_append, readStringBody.eq_def]
      simp +decide [escShort, ih]
    by_cases h2 : c = backCh
    · subst h2; rw [escChar, if_neg h1, if_pos rfl]
      rw [List.cons_append, List.cons_append, List.nil_append, readStringBody.eq_def]
      simp +decide [escShort, ih]
    by_cases h3 : c = Char.ofNat 8
    · subst h3; rw [escChar, if_neg h1, if_neg h2, if_pos rfl]
      rw [List.cons_append, List.cons_append, List.nil_append, readStringBody.eq_def]
      simp +decide [escShort, ih]
    by_cases h4 : c = Char.ofNat 9
    · subst h4; rw [escChar, if_neg h1, if_neg h2, if_neg h3, if_pos rfl]
      rw [List.cons_append, List.cons_append, List.nil_append, readStringBody.eq_def]
      simp +decide [escShort, ih]
    by_cases h5 : c = Char.ofNat 10
    · subst h5; rw [escChar, if_neg h1, if_neg h2, if_neg h3, if_neg h4, if_pos rfl]
      rw [List.cons_append, List.cons_append, List.nil_append, readStringBody.eq_def]
      simp +decide [escShort, ih]
    by_cases h6 : c = Char.ofNat 12
    · subst h6; rw [escChar, if_neg h1, if_neg h2, if_neg h3, if_neg h4, if_neg h5, if_pos rfl]
      rw [List.cons_append, List.cons_append, List.nil_append, readStringBody.eq_def]
      simp +decide [escShort, ih]
    by_cases h7 : c = Char.ofNat 13
    · subst h7
      rw [escChar, if_neg h1, if_neg h2, if_neg h3, if_neg h4, if_neg h5, if_neg h6, if_pos rfl]
      rw [List.cons_append, List.cons_append, List.nil_append, readStringBody.eq_def]
      simp +decide [escShort, ih]
    by_cases h8 : c.toNat < 32
    · rw [escChar, if_neg h1, if_neg h2, if_neg h3, if_neg h4, if_neg h5, if_neg h6, if_neg h7,
        if_pos h8]
      rw [List.cons_append, List.cons_append, List.cons_append, List.cons_append,
        List.cons_append, List.cons_append, List.nil_append, readStringBody.eq_def]
      have hdiv : c.toNat / 16 < 16 := by omega
      have hmod : c.toNat % 16 < 16 := by omega
      simp +decide only [if_true, if_false, hexVal4, hexVal_hexDigit _ hdiv,
        hexVal_hexDigit _ hmod, ih, Option.map_some]
      have hn : ((0 * 16 + 0) * 16 + c.toNat / 16) * 16 + c.toNat % 16 = c.toNat := by omega
      simp only [show hexVal '0' = some 0 from rfl]
      simp only [hn, Char.ofNat_toNat]
      rfl
    · rw [escChar, if_neg h1, if_neg h2, if_neg h3, if_neg h4, if_neg h5, if_neg h6, if_neg h7,
        if_neg h8]
      rw [List.cons_append, List.nil_append, readStringBody.eq_def]
      simp [if_neg h1, if_neg h2, ih]

/-- A serialised string literal parses as one string value. -/
theorem parseF_value_str (fuel : Nat) (cs rest : List Char) :
    parseF (fuel + 1) .value (strLitList cs rest) =
      some (.val (.str (String.mk cs)), rest) := by
  rw [strLitList, parseF.eq_def]
  simp +decide [skipWs, readStringBody_escape]

/-- The last `key: value` pair of an object body, closed by a brace. -/
theorem parseF_members_last (fuel : Nat) (ks : List Char) (l r : List Char) (v : Json)
    (hv : parseF fuel .value l = some (.val v, closeBr :: r)) :
    parseF (fuel + 1) .members (strLitList ks (':' :: l)) =
      some (.members [(String.mk ks, v)], r) := by
  rw [strLitList, parseF.eq_def]
  simp +decide [skipWs, readStringBody_escape, hv]

/-- A `key: value` pair followed by a comma and further members. -/
theorem parseF_members_cons (fuel : Nat) (ks : List Char) (l l2 r : List Char) (v : Json)
    (ms : List (String × Json))
    (hv : parseF fuel .value l = some (.val v, ',' :: l2))
    (hm : parseF fuel .members l2 = some (.members ms, r)) :
    parseF (fuel + 1) .members (strLitList ks (':' :: l)) =
      some (.members ((String.mk ks, v) :: ms), r) := by
  rw [strLitList, parseF.eq_def]
  simp +decide [skipWs, readStringBody_escape, hv, hm]

/-- An object literal whose member list parses. -/
theorem parseF_value_obj (fuel : Nat) (l r : List Char) (ms : List (String × Json))
    (hm : parseF fuel .members (quoteCh :: l) = some (.members ms, r)) :
    parseF (fuel + 1) .value (openBr :: quoteCh :: l) =
      some (.val (.obj ms), r) := by
  rw [parseF.eq_def]
  simp +decide [skipWs, hm]

/-- The serialised two-field envelope parses back to its record, with any
following input untouched. -/
theorem parseF_writeList (fuel : Nat) (t d : String) (rest : List Char) :
    parseF (fuel + 4) .value (writeList t d rest) = some (.val (envelopeJson t d), rest) := by
  have hd : parseF (fuel + 1) .value (strLitList d.data (closeBr :: rest)) =
      some (.val (.str d), closeBr :: rest) := parseF_value_str fuel d.data _
  have hdata : parseF (fuel + 2) .members
      (strLitList ("data".data) (':' :: strLitList d.data (closeBr :: rest))) =
      some (.members [("data", .str d)], rest) :=
    parseF_members_last (fuel + 1) _ _ _ _ hd
  have ht : parseF (fuel + 2) .value
      (strLitList t.data (',' :: strLitList ("data".data)
        (':' :: strLitList d.data (closeBr :: rest)))) =
      some (.val (.str t), ',' :: strLitList ("data".data)
        (':' :: strLitList d.data (closeBr :: rest))) :=
    parseF_value_str (fuel + 1) t.data _
  have htype : parseF (fuel + 3) .members
      (strLitList ("type".data) (':' :: strLitList t.data (',' :: strLitList ("data".data)
        (':' :: strLitList d.data (closeBr :: rest))))) =
      some (.members [("type", .str t), ("data", .str d)], rest) :=
    parseF_members_cons (fuel + 2) _ _ _ _ _ _ ht hdata
  rw [writeList, strLitList]
  exact parseF_value_obj (fuel + 3) _ _ _ htype

/-- `JSON.parse` applied to the exact text `Window.write` sends (envelope
plus newline terminator) recovers the `{type, data}` record, for every
type string and every data string. -/
theorem jsonParse_write (t d : String) :
    jsonParse (Window.write t d) = some (envelopeJson t d) := by
  obtain ⟨k, hk⟩ : ∃ k, (writeList t d ['\n']).length + 2 = k + 4 := by
    rw [writeList, strLitList]
    exact ⟨(escapeList ("type".data) ++
      quoteCh :: ':' :: strLitList t.data (',' :: strLitList ("data".data)
        (':' :: strLitList d.data (closeBr :: ['\n'])))).length, by simp⟩
  simp only [jsonParse, Window.write]
  rw [hk, parseF_writeList k t d ['\n']]
  simp +decide [skipWs]

/-! ### Registry lemmas

A run of `bind` calls assigns consecutive indices and never disturbs an
entry once it is stored. -/

/-- The indices distributed by a run of binds count up from the starting
`#bindIndex`. -/
theorem bindAll_ids (ops : List (String × κ)) : ∀ st : WindowCallbacks κ,
    (Window.bindAll st ops).2 = List.range' st.bindIndex ops.length := by
  induction ops with
  | nil => intro st; rfl
  | cons op rest ih =>
    intro st
    simp only [Window.bindAll, Window.bind, ih, List.length_cons, List.range'_succ]

/-- `#bindIndex` advances by exactly the number of binds. -/
theorem bindAll_bindIndex (ops : List (String × κ)) : ∀ st : WindowCallbacks κ,
    (Window.bindAll st ops).1.bindIndex = st.bindIndex + ops.length := by
  induction ops with
  | nil => intro st; simp [Window.bindAll]
  | cons op rest ih =>
    intro st
    simp only [Window.bindAll, Window.bind, ih, List.length_cons]
    omega

/-- Entries below the starting index are untouched by a run of binds. -/
theorem bindAll_callbacks_lt (ops : List (String × κ)) : ∀ (st : WindowCallbacks κ) (j : Nat),
    j < st.bindIndex → (Window.bindAll st ops).1.callbacks j = st.callbacks j := by
  induction ops with
  | nil => intro st j _; rfl
  | cons op rest ih =>
    intro st j hj
    simp only [Window.bindAll, Window.bind]
    rw [ih _ j (by simpa using Nat.lt_succ_of_lt hj)]
    simp only []
    rw [if_neg (by omega)]

/-- Slots at or above the final index stay what they were. -/
theorem bindAll_callbacks_ge (ops : List (String × κ)) : ∀ (st : WindowCallbacks κ) (j : Nat),
    st.bindIndex + ops.length ≤ j → (Window.bindAll st ops).1.callbacks j = st.callbacks j := by
  induction ops with
  | nil => intro st j _; rfl
  | cons op rest ih =>
    intro st j hj
    simp only [List.length_cons] at hj
    simp only [Window.bindAll, Window.bind]
    rw [ih _ j (by simp only []; omega)]
    simp only []
    rw [if_neg (by omega)]

/-- After a run of binds, the slot assigned to the i-th bind still holds
the i-th callable: nothing is ever removed or overwritten. -/
theorem bindAll_callbacks_stored (ops : List (String × κ)) :
    ∀ (st : WindowCallbacks κ) (i : Nat) (h : i < ops.length),
    (Window.bindAll st ops).1.callbacks (st.bindIndex + i) = some (ops.get ⟨i, h⟩).2 := by
  induction ops with
  | nil => intro st i h; exact absurd h (by simp)
  | cons op rest ih =>
    intro st i h
    match i with
    | 0 =>
      simp only [Window.bindAll, Window.bind]
      rw [bindAll_callbacks_lt rest _ _ (by simp only []; omega)]
      simp
    | i + 1 =>
      simp only [Window.bindAll, Window.bind]
      have h2 : i < rest.length := by simpa using Nat.lt_of_succ_lt_succ h
      have := ih ⟨fun j => if j = st.bindIndex then some op.2 else st.callbacks j,
        st.bindIndex + 1⟩ i h2
      simp only [] at this
      rw [show st.bindIndex + (i + 1) = st.bindIndex + 1 + i by omega]
      rw [this]
      rfl

/-! ### Configuration merge lemmas -/

/-- Key-preserving rewrite map: looking up `k` in the mapped list yields
`b`'s value for `k` exactly when `k` occurred in `a`. -/
theorem lookup_mapMerge (b : List (String × Json)) (k : String) (v : Json)
    (hb : b.lookup k = some v) :
    ∀ a : List (String × Json),
      ((a.map fun kv => match b.lookup kv.1 with
        | some w => (kv.1, w)
        | none => kv).lookup k) =
        if (a.lookup k).isSome then some v else none := by
  intro a
  induction a with
  | nil => simp
  | cons kv a ih =>
    obtain ⟨k1, v1⟩ := kv
    by_cases hk : k = k1
    · subst hk
      simp [List.lookup_cons, hb]
    · have hkb : (k == k1) = false := by simpa using hk
      rw [List.map_cons]
      cases hbl : b.lookup k1 with
      | none =>
        simp only [hbl]
        rw [List.lookup_cons, List.lookup_cons, hkb]
        simp only [ih]
      | some w =>
        simp only [hbl]
        rw [List.lookup_cons, List.lookup_cons, hkb]
        simp only [ih]

/-- Filtering out the keys present in `a` does not hide `k` when `a` does
not contain `k`. -/
theorem lookup_filterNotIn (a : List (String × Json)) (k : String) (v : Json)
    (ha : a.lookup k = none) :
    ∀ b : List (String × Json), b.lookup k = some v →
      ((b.filter fun kv => (a.lookup kv.1).isNone).lookup k) = some v := by
  intro b
  induction b with
  | nil => simp
  | cons kv b ih =>
    obtain ⟨k1, v1⟩ := kv
    intro hb
    by_cases hk : k = k1
    · subst hk
      rw [List.lookup_cons] at hb
      simp only [beq_self_eq_true] at hb
      simp [List.filter_cons, ha, List.lookup_cons, hb]
    · have hkb : (k == k1) = false := by simpa using hk
      rw [List.lookup_cons, hkb] at hb
      simp only [] at hb
      rw [List.filter_cons]
      by_cases hp : (a.lookup k1).isNone
      · simp only [hp, if_true]
        simp [List.lookup_cons, hkb, ih hb]
      · simp only [hp]
        simp [ih hb]

/-- In `{...a, ...b}`, every key of `b` ends up with `b`'s value, no
matter what `a` supplied for it. -/
theorem spreadMerge_lookup_right (a b : List (String × Json)) (k : String) (v : Json)
    (hb : b.lookup k = some v) :
    (spreadMerge a b).lookup k = some v := by
  rw [spreadMerge, List.lookup_append, lookup_mapMerge b k v hb a]
  cases ha : a.lookup k with
  | some w => simp
  | none => simp [lookup_filterNotIn a k v ha b hb]

/-- The merged configuration always reads back the default for each of
the four configured fields, so the spawn arguments never depend on the
caller's configuration. -/
theorem constructorConfig_ignores_user (user : List (String × Json)) :
    Window.createConfigArgs (Window.constructorConfig user) =
      Window.createConfigArgs defaultConfig := by
  rw [Window.createConfigArgs, Window.createConfigArgs, Window.constructorConfig]
  rw [spreadMerge_lookup_right user defaultConfig "height" (.num 320) rfl]
  rw [spreadMerge_lookup_right user defaultConfig "width" (.num 480) rfl]
  rw [spreadMerge_lookup_right user defaultConfig "title" (.str "") rfl]
  rw [spreadMerge_lookup_right user defaultConfig "url"
    (.str "data:text/html,<html>Bunview</html>") rfl]
  rfl

/-! ### Dispatcher lemmas -/

/-- Dispatching `bindCallback` at a populated registry slot produces
exactly one effect: the stored callable applied to the argument list. -/
theorem dispatch_bindCallback_ok (κ : Type) (callbacks : Nat → Option κ) (i : Nat) (f : κ)
    (args : List Json) (hf : callbacks i = some f) :
    Window.dispatchMsg callbacks
      (.obj [("type", .str "bindCallback"), ("id", .num (i : Int)), ("data", .arr args)]) =
      .ok [.invoke f args] := by
  have hnn : ¬((i : Int) < 0) := by omega
  simp only [Window.dispatchMsg,
    show (Json.obj [("type", Json.str "bindCallback"), ("id", Json.num (i : Int)),
      ("data", Json.arr args)]).lookupField "type" = some (.str "bindCallback") from rfl,
    show (Json.obj [("type", Json.str "bindCallback"), ("id", Json.num (i : Int)),
      ("data", Json.arr args)]).lookupField "id" = some (.num (i : Int)) from rfl,
    show (Json.obj [("type", Json.str "bindCallback"), ("id", Json.num (i : Int)),
      ("data", Json.arr args)]).lookupField "data" = some (.arr args) from rfl,
    show (("bindCallback" : String) = "event") = False by simp,
    show (("bindCallback" : String) = "internalEvent") = False by simp,
    if_false, if_true, eq_self_iff_true, if_neg hnn, Int.toNat_natCast, hf]

/-- A non-`close` `event` envelope emits once, with the payload argument
present exactly when the nested data field is truthy. -/
theorem dispatch_event_named (κ : Type) (callbacks : Nat → Option κ) (s : String)
    (nested : Json) (name : String)
    (hparse : jsonParse s = some nested)
    (hev : nested.lookupField "event" = some (.str name))
    (hname : name ≠ "close") :
    Window.dispatchMsg callbacks (.obj [("type", .str "event"), ("data", .str s)]) =
      .ok [.emit name (match nested.lookupField "data" with
        | some d => if jsTruthy d then some (some d) else none
        | none => none)] := by
  simp only [Window.dispatchMsg,
    show (Json.obj [("type", Json.str "event"), ("data", Json.str s)]).lookupField
      "type" = some (.str "event") from rfl,
    show (Json.obj [("type", Json.str "event"), ("data", Json.str s)]).lookupField
      "data" = some (.str s) from rfl,
    eq_self_iff_true, if_true, hparse, hev, if_neg hname]
  cases nested.lookupField "data" with
  | none => rfl
  | some d => by_cases hd : jsTruthy d <;> simp [hd]

/-! ### The claims -/

/-- Claim C1 (code bug): the constructor's merge `{...config, ...this.config}`
spreads the defaults second, so the defaults override every caller-supplied
field.  Constructing with `{width:800, height:600, title:"T"}` spawns with
`--height=320 --width=480 --title=""` and the default URL - not with the
caller's values as the claim states; indeed the spawn arguments are the
same for every caller configuration. -/
theorem claim_C1_defaults_override_caller :
    Window.createConfigArgs (Window.constructorConfig
      [("width", .num 800), ("height", .num 600), ("title", .str "T")]) =
      ["--height=320", "--width=480", "--title=\"\"",
       "--url=\"data:text/html,<html>Bunview</html>\""] ∧
    ∀ user : List (String × Json),
      Window.createConfigArgs (Window.constructorConfig user) =
        Window.createConfigArgs defaultConfig :=
  ⟨rfl, constructorConfig_ignores_user⟩

/-- Claim C2 (code bug): the stdout loop hands each chunk to `JSON.parse`
whole; nothing buffers partial lines or splits on newlines.  Delivered as
one chunk, `readyLine` dispatches fine; the same bytes split at an
arbitrary boundary make both fragments throw `SyntaxError`, so decoding is
not chunking-invariant. -/
theorem claim_C2_no_chunk_buffering :
    readyChunkA ++ readyChunkB = readyLine ∧
    Window.stdoutLoop (fun _ => (none : Option Unit)) [readyLine] =
      [.ok [.emit "ready" (some (some .null))]] ∧
    Window.stdoutLoop (fun _ => (none : Option Unit)) [readyChunkA, readyChunkB] =
      [.error .parseError, .error .parseError] :=
  ⟨rfl, rfl, rfl⟩

/-- Claim C3: dispatching `bindCallback` with an identifier the registry
never issued (over any sequence of binds from a fresh `Window`) throws -
`this.#callbacks[id]` is `undefined` and calling it raises a `TypeError`
(the spec's `UnknownCallbackError` condition).  The result is an error,
not an effect list, so no registered callable is invoked. -/
theorem claim_C3_unknown_callback_fails (κ : Type) (ops : List (String × κ)) (i : Int)
    (args : List Json)
    (hnever : ∀ n : Nat, n < ops.length → i ≠ (n : Int)) :
    Window.dispatchMsg (Window.bindAll (Window.initCallbacks κ) ops).1.callbacks
      (.obj [("type", .str "bindCallback"), ("id", .num i), ("data", .arr args)]) =
      .error .undefinedCall := by
  by_cases hneg : i < 0
  · simp only [Window.dispatchMsg,
      show (Json.obj [("type", Json.str "bindCallback"), ("id", Json.num i),
        ("data", Json.arr args)]).lookupField "type" = some (.str "bindCallback") from rfl,
      show (Json.obj [("type", Json.str "bindCallback"), ("id", Json.num i),
        ("data", Json.arr args)]).lookupField "id" = some (.num i) from rfl,
      show (("bindCallback" : String) = "event") = False by simp,
      show (("bindCallback" : String) = "internalEvent") = False by simp,
      if_false, if_true, eq_self_iff_true, if_pos hneg]
  · have h0 : 0 ≤ i := by omega
    have hge : ops.length ≤ i.toNat := by
      by_contra hlt
      push_neg at hlt
      exact hnever i.toNat hlt (Int.toNat_of_nonneg h0).symm
    have hcb : (Window.bindAll (Window.initCallbacks κ) ops).1.callbacks i.toNat = none := by
      rw [bindAll_callbacks_ge ops _ _ (by simpa [Window.initCallbacks] using hge)]
      rfl
    simp only [Window.dispatchMsg,
      show (Json.obj [("type", Json.str "bindCallback"), ("id", Json.num i),
        ("data", Json.arr args)]).lookupField "type" = some (.str "bindCallback") from rfl,
      show (Json.obj [("type", Json.str "bindCallback"), ("id", Json.num i),
        ("data", Json.arr args)]).lookupField "id" = some (.num i) from rfl,
      show (("bindCallback" : String) = "event") = False by simp,
      show (("bindCallback" : String) = "internalEvent") = False by simp,
      if_false, if_true, eq_self_iff_true, if_neg hneg, hcb]

/-- Witness for C3: after one bind on a fresh window, id 5 was never
issued and dispatching it fails. -/
theorem claim_C3_witness :
    Window.dispatchMsg (Window.bindAll (Window.initCallbacks Unit) [("add", ())]).1.callbacks
      (.obj [("type", .str "bindCallback"), ("id", .num 5), ("data", .arr [])]) =
      .error .undefinedCall :=
  claim_C3_unknown_callback_fails Unit [("add", ())] 5 [] (by decide)

/-- Counterexample to C4 as stated: dispatching the `ready` internalEvent
line emits `"ready"` WITH a payload argument (the JavaScript `null`), not
with no payload - `this.emit(evt.event, evt.data)` passes `evt.data`
unconditionally. -/
theorem claim_C4_counterexample :
    Window.ioStdout (fun _ => (none : Option Unit)) readyLine =
      .ok [.emit "ready" (some (some .null))] ∧
    Window.ioStdout (fun _ => (none : Option Unit)) readyLine ≠
      .ok [.emit "ready" none] := by
  refine ⟨rfl, ?_⟩
  intro h
  rw [show Window.ioStdout (fun _ => (none : Option Unit)) readyLine =
    .ok [.emit "ready" (some (some .null))] from rfl] at h
  simp at h

/-- Claim C4 (amended): dispatching the `ready` internalEvent line invokes
the subscriber with exactly one payload argument whose value is `null`. -/
theorem claim_C4_internal_event_null_payload (κ : Type) (callbacks : Nat → Option κ) :
    Window.ioStdout callbacks readyLine = .ok [.emit "ready" (some (some .null))] := rfl

/-- Counterexample to C5 as stated: an envelope with unknown type `"bogus"`
falls through every branch of the dispatcher: no error is raised, nothing
is logged, no effect happens - `.ok []`, a silent drop. -/
theorem claim_C5_counterexample :
    Window.ioStdout (fun _ => (none : Option Unit)) bogusLine = .ok [] := rfl

/-- Claim C5 (amended): for every envelope whose type is a string other
than `event`, `internalEvent` and `bindCallback`, the dispatcher silently
ignores the envelope (no effect and no error). -/
theorem claim_C5_unknown_type_ignored (κ : Type) (callbacks : Nat → Option κ)
    (ms : List (String × Json)) (ty : String)
    (hty : ms.lookup "type" = some (.str ty))
    (h1 : ty ≠ "event") (h2 : ty ≠ "internalEvent") (h3 : ty ≠ "bindCallback") :
    Window.dispatchMsg callbacks (.obj ms) = .ok [] := by
  simp only [Window.dispatchMsg, Json.lookupField, hty]
  rw [if_neg h1, if_neg h2, if_neg h3]

/-- Witness for C5 (amended) at the concrete `"bogus"` envelope. -/
theorem claim_C5_witness :
    Window.dispatchMsg (fun _ => (none : Option Unit))
      (.obj [("type", .str "bogus"), ("data", .str "x")]) = .ok [] :=
  claim_C5_unknown_type_ignored Unit _ _ "bogus" rfl (by decide) (by decide) (by decide)

/-- Claim C6: for every supported outbound type and every data string,
parsing the encoded single-line envelope reproduces the `{type, data}`
record. -/
theorem claim_C6_roundtrip (t d : String) (_ht : t ∈ outboundTypes) :
    jsonParse (Window.write t d) = some (envelopeJson t d) :=
  jsonParse_write t d

/-- Witness for C6 at type `setTitle` and data `hello`. -/
theorem claim_C6_witness :
    jsonParse (Window.write "setTitle" "hello") =
      some (envelopeJson "setTitle" "hello") :=
  claim_C6_roundtrip "setTitle" "hello" (by decide)

/-- Claim C7: over every sequence of binds on a fresh `Window`, the
registry assigns the identifiers 0, 1, 2, ... in order (strictly
increasing from zero, never reused), the final state still stores the i-th
callable at identifier i (append-only, nothing removed or overwritten -
intermediate states are the same statement at a prefix of the sequence),
and no identifier outside the issued range is populated. -/
theorem claim_C7_registry_append_only (κ : Type) (ops : List (String × κ)) :
    (Window.bindAll (Window.initCallbacks κ) ops).2 = List.range ops.length ∧
    (Window.bindAll (Window.initCallbacks κ) ops).1.bindIndex = ops.length ∧
    (∀ (i : Nat) (h : i < ops.length),
      (Window.bindAll (Window.initCallbacks κ) ops).1.callbacks i = some (ops.get ⟨i, h⟩).2) ∧
    (∀ j : Nat, ops.length ≤ j →
      (Window.bindAll (Window.initCallbacks κ) ops).1.callbacks j = none) := by
  refine ⟨?_, ?_, ?_, ?_⟩
  · rw [bindAll_ids, List.range_eq_range']; rfl
  · rw [bindAll_bindIndex]; simp [Window.initCallbacks]
  · intro i h
    have := bindAll_callbacks_stored ops (Window.initCallbacks κ) i h
    simpa [Window.initCallbacks] using this
  · intro j hj
    rw [bindAll_callbacks_ge ops _ j (by simpa [Window.initCallbacks] using hj)]
    rfl

/-- Witness for C7 on a concrete two-bind run. -/
theorem claim_C7_witness :
    (Window.bindAll (Window.initCallbacks Nat) [("a", 10), ("b", 20)]).2 = [0, 1] ∧
    (Window.bindAll (Window.initCallbacks Nat) [("a", 10), ("b", 20)]).1.callbacks 0 =
      some 10 ∧
    (Window.bindAll (Window.initCallbacks Nat) [("a", 10), ("b", 20)]).1.callbacks 1 =
      some 20 ∧
    (Window.bindAll (Window.initCallbacks Nat) [("a", 10), ("b", 20)]).1.callbacks 2 =
      none := by
  have h := claim_C7_registry_append_only Nat [("a", 10), ("b", 20)]
  refine ⟨by rw [h.1]; decide, ?_, ?_, h.2.2.2 2 (by decide)⟩
  · have := h.2.2.1 0 (by decide)
    simpa using this
  · have := h.2.2.1 1 (by decide)
    simpa using this

/-- Claim C8: dispatching `bindCallback` at an id whose slot stores `f`
produces exactly one invocation - `f` applied positionally to the
envelope's argument list, with no other callable invoked; in particular
after `bind("add", f)` on a fresh window, the concrete line
`{"type":"bindCallback","id":0,"data":[2,3]}` invokes `f` with `(2,3)`. -/
theorem claim_C8_bind_callback_dispatch :
    (∀ (κ : Type) (callbacks : Nat → Option κ) (i : Nat) (f : κ) (args : List Json),
      callbacks i = some f →
      Window.dispatchMsg callbacks (.obj [("type", .str "bindCallback"),
        ("id", .num (i : Int)), ("data", .arr args)]) = .ok [.invoke f args]) ∧
    (∀ (κ : Type) (f : κ),
      Window.ioStdout ((Window.bind (Window.initCallbacks κ) "add" f).1).callbacks
        bindCallbackLine = .ok [.invoke f [.num 2, .num 3]]) :=
  ⟨dispatch_bindCallback_ok, fun _ _ => rfl⟩

/-- Witness for C8's general part at a concrete one-entry registry. -/
theorem claim_C8_witness :
    Window.dispatchMsg (fun j => if j = 0 then some 42 else (none : Option Nat))
      (.obj [("type", .str "bindCallback"), ("id", .num ((0 : Nat) : Int)),
        ("data", .arr [])]) = .ok [.invoke 42 []] :=
  claim_C8_bind_callback_dispatch.1 Nat _ 0 42 [] rfl

/-- Claim C9: dispatching the nested-`close` event line produces exactly
the effects `[kill, emit "close"]`, in that order - one kill of the
process handle before a single `close` emission. -/
theorem claim_C9_close_kills_then_emits (κ : Type) (callbacks : Nat → Option κ) :
    Window.ioStdout callbacks closeLine = .ok [.kill, .emit "close" none] := rfl

/-- Claim C10: for a non-`close` event envelope, the emission carries a
payload argument exactly when the nested data field is truthy; `0`,
`false`, the empty string and `null` are falsy, so a present-but-falsy
data value emits with no payload argument. -/
theorem claim_C10_truthy_payload :
    (∀ (κ : Type) (callbacks : Nat → Option κ) (s : String) (nested : Json) (name : String),
      jsonParse s = some nested →
      nested.lookupField "event" = some (.str name) →
      name ≠ "close" →
      Window.dispatchMsg callbacks (.obj [("type", .str "event"), ("data", .str s)]) =
        .ok [.emit name (match nested.lookupField "data" with
          | some d => if jsTruthy d then some (some d) else none
          | none => none)]) ∧
    jsTruthy (.num 0) = false ∧ jsTruthy (.bool false) = false ∧
    jsTruthy (.str "") = false ∧ jsTruthy .null = false :=
  ⟨dispatch_event_named, rfl, rfl, rfl, rfl⟩

/-- Witness for C10 at nested data `0`: the event is emitted with no
payload argument. -/
theorem claim_C10_witness :
    Window.dispatchMsg (fun _ => (none : Option Unit))
      (.obj [("type", .str "event"), ("data", .str "\x7b\"event\":\"x\",\"data\":0\x7d")]) =
      .ok [.emit "x" none] := by
  have h := claim_C10_truthy_payload.1 Unit (fun _ => none) "\x7b\"event\":\"x\",\"data\":0\x7d"
    (.obj [("event", .str "x"), ("data", .num 0)]) "x" rfl rfl (by decide)
  exact h

end Bunview
